import Mathlib

/-
Verification development for the rbt incremental-backup tool (src/rbt.py).

The Python source is shallowly embedded below:
  * `lockEnter` / `lockExit` / `withFileLock` model `FileLock.__enter__`,
    `FileLock.__exit__` and the `with FileLock(...)` block in `__main__`;
  * `Fs`, `rename`, `shiftLoop`, `rotate`, `runJob` model the generation
    directories `target/backup.0 .. backup.N`, `os.rename`, `Backup.rotate`
    and `Backup.run`;
  * `parse_rfc3339`, `read_completed`, `classifyServer`, `collectStatuses`
    and `get_backup_status` model the status-classification pass.
Environment-dependent values (current time, current date, the local-timezone
conversion done by `datetime.datetime.fromtimestamp`, the pid written by
`os.getpid`, the outcome of `os.kill(pid, 0)`, the rsync exit code and the
content rsync leaves in the staging directory) are passed in as explicit
parameters.  Uncaught Python exceptions are modelled as `PyResult.exn` /
`Option.none` results.
-/

set_option maxRecDepth 8000

namespace Rbt

/-- Result of running a piece of Python code: either a value or an uncaught
exception (ValueError, TypeError, AttributeError, OSError, ...). -/
inductive PyResult (α : Type) where
  | exn : PyResult α
  | ok : α → PyResult α
deriving DecidableEq

/-- Apply a function under `PyResult.ok`, propagating exceptions. -/
def PyResult.map {α β : Type} (f : α → β) : PyResult α → PyResult β
  | PyResult.exn => PyResult.exn
  | PyResult.ok a => PyResult.ok (f a)

/-- ASCII whitespace stripped by Python's `str.strip()` (the Unicode space
classes Python additionally strips are not exercised by any input modelled
here). -/
def pySpace (c : Char) : Bool :=
  c = ' ' || c = '\t' || c = '\n' || c = '\r' || c = '\x0b' || c = '\x0c'

/-- Model of `str.strip()` on the character list of a string. -/
def pyStrip (l : List Char) : List Char :=
  ((l.dropWhile pySpace).reverse.dropWhile pySpace).reverse

/-- Model of `str.split(":")`: splitting on every colon, so that
`"".split(":") == [""]` and separators at the ends produce empty fields. -/
def pySplitColon : List Char → List (List Char)
  | [] => [[]]
  | c :: rest =>
    let r := pySplitColon rest
    if c = ':' then [] :: r
    else
      match r with
      | [] => [[c]]
      | f :: fs => (c :: f) :: fs

/-- Numeric value of a digit string (caller has checked all characters are
digits); mirrors how `int` accumulates decimal digits, so leading zeros are
dropped. -/
def digitsVal0 (l : List Char) : Nat :=
  l.foldl (fun a c => a * 10 + (c.toNat - 48)) 0

/-- Value of a nonempty all-digit string, `none` otherwise. -/
def digitsVal (l : List Char) : Option Nat :=
  if l = [] then none
  else if l.all Char.isDigit then some (digitsVal0 l) else none

/-- Model of Python `int(s)` on a string: surrounding whitespace is stripped
and an optional sign is allowed before the digits; `none` models the
`ValueError` raised on any other shape.  (Python's underscore digit
separators are not modelled; no input in this repository uses them.) -/
def pyIntL (l : List Char) : Option Int :=
  match pyStrip l with
  | '-' :: r => (digitsVal r).map (fun n => -(n : Int))
  | '+' :: r => (digitsVal r).map (fun n => (n : Int))
  | r => (digitsVal r).map (fun n => (n : Int))

/-- Model of Python `int(s)` on a `String`. -/
def pyInt? (s : String) : Option Int :=
  pyIntL s.data

/-- Model of `str.lower()` restricted to ASCII case folding. -/
def toLowerL (l : List Char) : List Char :=
  l.map Char.toLower

/-- A Python `datetime.datetime` value: calendar fields plus an optional
UTC-offset in minutes (`none` models a naive datetime such as the result of
`datetime.datetime.now()`). -/
structure DT where
  year : Nat
  month : Nat
  day : Nat
  hour : Nat
  minute : Nat
  second : Nat
  usec : Nat
  offsetMin : Option Int
deriving DecidableEq

/-- Model of `datetime.date()`: the (year, month, day) triple of a
datetime. -/
def DT.date (t : DT) : Nat × Nat × Nat :=
  (t.year, t.month, t.day)

/-- One fuelled unfolding of the `while micro > 999999` loop inside the
`micro` helper of `parse_rfc3339`. -/
def microGo : Nat → Nat → Nat
  | 0, m => m
  | fuel + 1, m => if m > 999999 then microGo fuel (m / 1000) else m

/-- The `micro` helper inside `parse_rfc3339`: repeatedly integer-divide by
1000 until the value fits in the microsecond range.  The while loop is run
with an explicit fuel of n iterations, which strictly exceeds the number of
divisions performed because the value strictly decreases at every step. -/
def micro (n : Nat) : Nat := microGo n n

/-- Gregorian leap-year test, as used by Python's `datetime` validation. -/
def isLeap (y : Nat) : Bool :=
  (y % 4 == 0 && y % 100 != 0) || y % 400 == 0

/-- Days in a month, as used by Python's `datetime` validation. -/
def daysInMonth (y m : Nat) : Nat :=
  if m = 2 then (if isLeap y then 29 else 28)
  else if m = 4 ∨ m = 6 ∨ m = 9 ∨ m = 11 then 30 else 31

/-- The `datetime.datetime(...)` constructor together with the
`datetime.timezone(datetime.timedelta(...))` argument built by
`parse_rfc3339`: `none` models the `ValueError` raised on out-of-range
fields or a timezone offset of 24 hours or more. -/
def mkDatetime (y mo d h mi s us : Nat) (offMin : Int) : Option DT :=
  if 1 ≤ y ∧ y ≤ 9999 ∧ 1 ≤ mo ∧ mo ≤ 12 ∧ 1 ≤ d ∧ d ≤ daysInMonth y mo ∧
      h ≤ 23 ∧ mi ≤ 59 ∧ s ≤ 59 ∧ us ≤ 999999 ∧ -1440 < offMin ∧ offMin < 1440 then
    some ⟨y, mo, d, h, mi, s, us, some offMin⟩
  else none

/-- Read exactly `k` decimal digits, returning their value and the rest. -/
def fixedDigitsAux : Nat → Nat → List Char → Option (Nat × List Char)
  | 0, acc, l => some (acc, l)
  | _ + 1, _, [] => none
  | k + 1, acc, c :: l =>
    if c.isDigit then fixedDigitsAux k (acc * 10 + (c.toNat - 48)) l else none

/-- Read exactly `k` decimal digits at the front of the input. -/
def fixedDigits (k : Nat) (l : List Char) : Option (Nat × List Char) :=
  fixedDigitsAux k 0 l

/-- Require a specific character at the front of the input. -/
def expectChar (c : Char) : List Char → Option (List Char)
  | x :: r => if x = c then some r else none
  | [] => none

/-- The capture groups of the regular expression inside `parse_rfc3339`:
date and time fields, the optional fractional-second digits (group 8, `none`
when the group did not participate in the match), and the timezone fields
with `int(group(10) or "0")` semantics already applied (a literal `Z`
yields offset 0:00). -/
structure RfcParts where
  y : Nat
  mo : Nat
  d : Nat
  h : Nat
  mi : Nat
  s : Nat
  frac : Option Nat
  tzh : Int
  tzm : Nat
deriving DecidableEq

/-- Match the timezone alternative `(Z|([+-][0-9]{2}):([0-9]{2}))` of the
regular expression, returning the signed hour part, the minute part and the
remaining input. -/
def matchTz : List Char → Option (Int × Nat × List Char)
  | 'Z' :: r => some (0, 0, r)
  | '+' :: r => do
    let (h, r1) ← fixedDigits 2 r
    let r2 ← expectChar ':' r1
    let (m, r3) ← fixedDigits 2 r2
    some ((h : Int), m, r3)
  | '-' :: r => do
    let (h, r1) ← fixedDigits 2 r
    let r2 ← expectChar ':' r1
    let (m, r3) ← fixedDigits 2 r2
    some (-(h : Int), m, r3)
  | _ => none

/-- Match the whole `parse_rfc3339` regular expression anchored at the start
of the input.  The fractional-second group `(\.([0-9]+))?` is tried greedily
first and dropped (regex backtracking) when no timezone follows it. -/
def matchAt (l : List Char) : Option RfcParts := do
  let (y, l) ← fixedDigits 4 l
  let l ← expectChar '-' l
  let (mo, l) ← fixedDigits 2 l
  let l ← expectChar '-' l
  let (d, l) ← fixedDigits 2 l
  let l ← expectChar 'T' l
  let (h, l) ← fixedDigits 2 l
  let l ← expectChar ':' l
  let (mi, l) ← fixedDigits 2 l
  let l ← expectChar ':' l
  let (s, l) ← fixedDigits 2 l
  match l with
  | '.' :: r =>
    let ds := r.takeWhile Char.isDigit
    if ds = [] then
      match matchTz l with
      | some (th, tm, _) => some ⟨y, mo, d, h, mi, s, none, th, tm⟩
      | none => none
    else
      match matchTz (r.dropWhile Char.isDigit) with
      | some (th, tm, _) => some ⟨y, mo, d, h, mi, s, some (digitsVal0 ds), th, tm⟩
      | none =>
        match matchTz l with
        | some (th, tm, _) => some ⟨y, mo, d, h, mi, s, none, th, tm⟩
        | none => none
  | _ =>
    match matchTz l with
    | some (th, tm, _) => some ⟨y, mo, d, h, mi, s, none, th, tm⟩
    | none => none

/-- Model of `re.search`: the leftmost position at which the pattern
matches. -/
def rfcSearch : List Char → Option RfcParts
  | [] => none
  | c :: r =>
    match matchAt (c :: r) with
    | some p => some p
    | none => rfcSearch r

/-- Model of `parse_rfc3339`.  `none` models the uncaught exception raised
when the regular expression does not match (`parts.group` on `None`), when
the fractional-second group is absent (`int(None)` — so a timestamp without
fractional seconds, such as `2024-01-01T00:00:00Z`, raises), or when the
`datetime` constructor rejects a field. -/
def parse_rfc3339 (l : List Char) : Option DT :=
  match rfcSearch l with
  | none => none
  | some p =>
    match p.frac with
    | none => none
    | some f => mkDatetime p.y p.mo p.d p.h p.mi p.s (micro f) (p.tzh * 60 + (p.tzm : Int))

/-- Zero-padded two-digit rendering used inside `str(datetime.timedelta)`. -/
def two (n : Nat) : String :=
  if n < 10 then "0" ++ toString n else toString n

/-- Model of `str(datetime.timedelta(seconds=n))`, including the
normalisation of negative totals into a signed day count plus a
non-negative time of day. -/
def timedeltaStr (secs : Int) : String :=
  let days := secs.fdiv 86400
  let rem := (secs - days * 86400).toNat
  let h := rem / 3600
  let m := rem % 3600 / 60
  let s := rem % 60
  let core := toString h ++ ":" ++ two m ++ ":" ++ two s
  if days = 0 then core
  else
    toString days ++ (if days = 1 ∨ days = -1 then " day, " else " days, ") ++ core

-- ---------------------------------------------------------------------------
-- FileLock (src/rbt.py lines 53-86) and the `with` block in `__main__`
-- ---------------------------------------------------------------------------

/-- Outcome of the liveness probe `os.kill(pid, 0)`: signal delivered
(process alive), `ProcessLookupError` (no such process), or
`PermissionError` (probing a process owned by another user).  Both error
cases are subclasses of `OSError`. -/
inductive KillRes where
  | delivered : KillRes
  | noSuchProcess : KillRes
  | permissionDenied : KillRes
deriving DecidableEq

/-- Model of `FileLock.__enter__`.  `file` is the content of the lock file
(`none` when the file does not exist), `probe` the outcome of
`os.kill(pid, 0)` for each pid, `mypid` the current process id.  Returns
the new lock-file content and the `acquired` flag.  Note the source catches
every `OSError` from the probe — including `PermissionError` — with `pass`,
falling through to the acquisition path. -/
def lockEnter (probe : Int → KillRes) (mypid : Nat) (acquired : Bool)
    (file : Option String) : Option String × Bool :=
  if acquired then (file, true)
  else
    match file with
    | some content =>
      match pyInt? content with
      | some pid =>
        match probe pid with
        | KillRes.delivered => (some content, false)
        | _ => (some (toString mypid), true)
      | none => (some (toString mypid), true)
    | none => (some (toString mypid), true)

/-- Model of `FileLock.__exit__`: unlink the lock file only when this handle
acquired it; otherwise leave everything alone. -/
def lockExit (acquired : Bool) (file : Option String) : Option String × Bool :=
  if acquired then (none, false) else (file, acquired)

/-- Model of the `with FileLock(...)` block in `__main__`: `__enter__`,
then the guarded body (which receives the `acquired` flag, may change the
file-system state and may raise an exception of type `ε`), then
`__exit__` — which the `with` statement runs on every exit path, the
exceptional one included, before re-raising. -/
def withFileLock {ε : Type} (probe : Int → KillRes) (mypid : Nat)
    (file : Option String)
    (body : Bool → Option String → Option String × Option ε) :
    Option String × Option ε :=
  let e := lockEnter probe mypid false file
  let b := body e.2 e.1
  ((lockExit e.2 b.1).1, b.2)

-- ---------------------------------------------------------------------------
-- Backup.rotate / Backup.run (src/rbt.py lines 103-180)
-- ---------------------------------------------------------------------------

/-- The directory names `Backup.rotate` touches under the target root:
`backup.i` for each index, and the sibling `backup.tmp`. -/
inductive FsName where
  | slot : Nat → FsName
  | tmp : FsName
deriving DecidableEq

/-- The target directory as a partial map from names to directory contents:
`none` means the directory does not exist. -/
def Fs (α : Type) : Type := FsName → Option α

/-- The state of the target directory after a successful
`os.rename(src, dst)`: the content of `src` now lives under `dst` and `src`
is gone. -/
def renamed {α : Type} (fs : Fs α) (src dst : FsName) (c : α) : Fs α :=
  fun n => if n = dst then some c else if n = src then none else fs n

/-- Model of `os.rename(src, dst)`: fails (raises) when the source is
missing, or when the destination exists — a POSIX rename of one non-empty
directory onto another fails with ENOTEMPTY (renaming a path onto itself
succeeds and changes nothing; the empty-destination overwrite POSIX would
allow never occurs in the rotation flow, whose destinations are always
vacated first). -/
def rename {α : Type} (fs : Fs α) (src dst : FsName) : Option (Fs α) :=
  match fs src with
  | none => none
  | some c =>
    match fs dst with
    | none => some (renamed fs src dst c)
    | some _ => if src = dst then some fs else none

/-- The rotation loop `for idx in range(self.backups - 1, -1, -1)`:
`shiftLoop k` renames `backup.(k-1)` to `backup.k`, then recurses, ending
with `backup.0` renamed to `backup.1`.  A failed rename propagates as an
exception (`none`). -/
def shiftLoop {α : Type} : Nat → Fs α → Option (Fs α)
  | 0, fs => some fs
  | k + 1, fs =>
    (rename fs (FsName.slot k) (FsName.slot (k + 1))).bind (shiftLoop k)

/-- Model of `Backup.rotate` with retention depth `backups`: move the
staging directory `backup.N` to `backup.tmp`, shift `backup.(N-1) .. backup.0`
up one slot from the tail toward the head, then rename `backup.tmp` to
`backup.0`. -/
def rotate {α : Type} (backups : Nat) (fs : Fs α) : Option (Fs α) :=
  (rename fs (FsName.slot backups) FsName.tmp).bind (fun fs1 =>
    (shiftLoop backups fs1).bind (fun fs2 =>
      rename fs2 FsName.tmp (FsName.slot 0)))

/-- The completion record `Backup.run` serialises to JSON and
`read_completed` decodes again: job name, `datetime.now().isoformat()`
timestamp, and elapsed duration in seconds (the JSON encoding itself is
abstracted to its decoded fields; the float duration is modelled at the
integer precision `read_completed` truncates it to). -/
structure CompletedData where
  name : String
  timestamp : String
  duration : Int
deriving DecidableEq

/-- Content of one generation directory `backup.i`: the `files/` subtree
(abstracted to an opaque content value) and the `completed` record file,
each possibly absent. -/
structure GenDir (α : Type) where
  files : Option α
  completed : Option CompletedData
deriving DecidableEq

/-- The `os.makedirs` loop at the top of `Backup.run`: create any of
`backup.0 .. backup.(N-1)` that is missing, as an empty directory. -/
def ensureDirs {α : Type} (backups : Nat) (fs : Fs (GenDir α)) : Fs (GenDir α) :=
  fun n =>
    match n with
    | FsName.slot i =>
      if i < backups then some ((fs (FsName.slot i)).getD ⟨none, none⟩)
      else fs (FsName.slot i)
    | FsName.tmp => fs FsName.tmp

/-- The effect of the rsync invocation: the staging `backup.N/files` content
becomes `synced` (the directory having been created first when absent),
while a pre-existing `backup.N/completed` file is left in place. -/
def syncStage {α : Type} (backups : Nat) (synced : α) (fs : Fs (GenDir α)) :
    Fs (GenDir α) :=
  fun n =>
    if n = FsName.slot backups then
      some ⟨some synced, (fs (FsName.slot backups)).bind GenDir.completed⟩
    else fs n

/-- Writing the completion record into the new `backup.0` after rotation. -/
def writeCompleted {α : Type} (rec : CompletedData) (fs3 : Fs (GenDir α))
    (g0 : GenDir α) : Fs (GenDir α) :=
  fun n => if n = FsName.slot 0 then some ⟨g0.files, some rec⟩ else fs3 n

/-- Model of `Backup.run` with retention depth `backups`.  `synced` is the
content the rsync invocation leaves in `backup.N/files` (whatever its exit
status), `returncode` its exit code, and `rec` the completion record built
from the current time.  Steps, in source order: create any missing
generation directories `backup.0 .. backup.(N-1)` and the staging `files/`
subtree, invoke rsync, return early reporting the exit code when it is
neither 0 nor 24, otherwise rotate and write the completion record into the
new `backup.0`.  The result is `none` when an uncaught exception escapes
(a failed rename), otherwise the final state paired with the reported exit
code (`none` when the job completed). -/
def runJob {α : Type} (backups : Nat) (synced : α) (returncode : Int)
    (rec : CompletedData) (fs : Fs (GenDir α)) :
    Option (Fs (GenDir α) × Option Int) :=
  let fs2 := syncStage backups synced (ensureDirs backups fs)
  if returncode ≠ 0 ∧ returncode ≠ 24 then some (fs2, some returncode)
  else
    (rotate backups fs2).bind (fun fs3 =>
      (fs3 (FsName.slot 0)).map (fun g0 => (writeCompleted rec fs3 g0, none)))

/-- The index permutation realised by one rotation on the slots 0..N: the
staged slot N becomes slot 0, every other slot moves down by one. -/
def rotIdx (backups i : Nat) : Nat :=
  if i = backups then 0 else i + 1

-- ---------------------------------------------------------------------------
-- Status classification (src/rbt.py lines 220-400)
-- ---------------------------------------------------------------------------

/-- Outcome of running the status plugin with `subprocess.run`: its exit
code and its standard output. -/
structure PluginOut where
  returncode : Int
  stdout : String
deriving DecidableEq

/-- One target directory as seen by `get_backup_status`: its display name
(`server[8:]`), whether a `.ignore` marker file is present, the status
plugin invocation outcome when an executable `status` file is present, the
decoded `backup.0/completed` record when that file is present, and the raw
content of the `.comment` sidecar file when present. -/
structure ServerDir where
  name : String
  hasIgnore : Bool
  plugin : Option PluginOut
  completedFile : Option CompletedData
  commentFile : Option String
deriving DecidableEq

/-- The `Completed` namedtuple produced by `read_completed`: rendered
duration, job name, parsed timestamp. -/
structure Completed where
  duration : String
  name : String
  mtime : DT
deriving DecidableEq

/-- One row of `resultSet`: classification code (0 OK / 1 ERR / 2 UNK),
server name, timestamp (absent for UNKNOWN rows), duration text, optional
comment. -/
structure StatusRec where
  code : Int
  server : String
  mtime : Option DT
  duration : String
  comment : Option String
deriving DecidableEq

/-- The ambient values `get_backup_status` reads from its environment: the
current time (`datetime.datetime.now()`), the current date
(`datetime.datetime.now().date()`), and the local-timezone conversion
`datetime.datetime.fromtimestamp`. -/
structure Env where
  now : DT
  today : Nat × Nat × Nat
  fromtimestamp : Int → DT

/-- Model of `read_comment`: the stripped content of the `.comment` file,
or `None` when the file is absent. -/
def read_comment (s : ServerDir) : Option String :=
  s.commentFile.map (fun c => String.mk (pyStrip c.data))

/-- Model of `read_completed`: absent file yields `None`; a present file is
decoded and its timestamp run through `parse_rfc3339` (whose failure is an
uncaught exception) and its duration through
`str(timedelta(seconds=int(...)))`. -/
def read_completed (f : Option CompletedData) : PyResult (Option Completed) :=
  match f with
  | none => PyResult.ok none
  | some d =>
    match parse_rfc3339 d.timestamp.data with
    | none => PyResult.exn
    | some m => PyResult.ok (some ⟨timedeltaStr d.duration, d.name, m⟩)

/-- The completion-record branch of `get_backup_status` for one target:
no record → UNKNOWN (code 2); record dated today → OK (code 0); record
dated any other day → ERR (code 1). -/
def completedBranch (env : Env) (s : ServerDir) : PyResult (Option StatusRec) :=
  match read_completed s.completedFile with
  | PyResult.exn => PyResult.exn
  | PyResult.ok none => PyResult.ok (some ⟨2, s.name, none, "n/a", read_comment s⟩)
  | PyResult.ok (some comp) =>
    if comp.mtime.date = env.today then
      PyResult.ok (some ⟨0, s.name, some comp.mtime, comp.duration, read_comment s⟩)
    else
      PyResult.ok (some ⟨1, s.name, some comp.mtime, comp.duration, read_comment s⟩)

/-- The per-target body of the loop in `get_backup_status`: skip targets
carrying `.ignore`; when a status plugin exists and exits 0, 1 or 2, strip
its stdout and split it on every colon, unpack into exactly five fields
(any other field count raises ValueError), parse the timestamp according to
the format field (an unrecognised format rewrites the code to 1/ERR and
substitutes the current time), and record the plugin's exit code verbatim;
a plugin exit code outside 0..2 falls through to the completion-record
branch, as does the absence of a plugin. -/
def classifyServer (env : Env) (s : ServerDir) : PyResult (Option StatusRec) :=
  if s.hasIgnore then PyResult.ok none
  else
    match s.plugin with
    | some p =>
      if p.returncode = 0 ∨ p.returncode = 1 ∨ p.returncode = 2 then
        match pySplitColon (pyStrip p.stdout.data) with
        | [_stat, fm, ms, du, co] =>
          if toLowerL fm = "iso".data then
            match parse_rfc3339 ms with
            | none => PyResult.exn
            | some m =>
              PyResult.ok (some ⟨p.returncode, s.name, some m, String.mk du, some (String.mk co)⟩)
          else if toLowerL fm = "epoch".data then
            match pyIntL ms with
            | none => PyResult.exn
            | some t =>
              PyResult.ok
                (some ⟨p.returncode, s.name, some (env.fromtimestamp t), String.mk du,
                  some (String.mk co)⟩)
          else
            PyResult.ok (some ⟨1, s.name, some env.now, String.mk du, some (String.mk co)⟩)
        | _ => PyResult.exn
      else completedBranch env s
    | none => completedBranch env s

/-- The accumulation loop of `get_backup_status` over the target list,
before sorting. -/
def collectStatuses (env : Env) : List ServerDir → PyResult (List StatusRec)
  | [] => PyResult.ok []
  | s :: rest =>
    match classifyServer env s with
    | PyResult.exn => PyResult.exn
    | PyResult.ok none => collectStatuses env rest
    | PyResult.ok (some r) =>
      match collectStatuses env rest with
      | PyResult.exn => PyResult.exn
      | PyResult.ok rs => PyResult.ok (r :: rs)

/-- Python's `<=` on strings: lexicographic comparison of code points. -/
def pyStrLeB : List Char → List Char → Bool
  | [], _ => true
  | _ :: _, [] => false
  | a :: as, b :: bs =>
    if a.toNat < b.toNat then true
    else if b.toNat < a.toNat then false
    else pyStrLeB as bs

/-- The descending tuple order realised by `resultSet.sort(reverse=True)`:
code first, then server name (Python's lexicographic string order).
Python compares the remaining tuple components only when code and name both
tie, which cannot happen for the distinct directory paths one scan
produces, so the order is modelled on the first two components (any stable
sort for this comparator agrees with Timsort). -/
def statusGe (a b : StatusRec) : Prop :=
  b.code < a.code ∨ (b.code = a.code ∧ pyStrLeB b.server.data a.server.data = true)

instance : DecidableRel statusGe := fun a b =>
  inferInstanceAs
    (Decidable (b.code < a.code ∨
      (b.code = a.code ∧ pyStrLeB b.server.data a.server.data = true)))

/-- Model of `get_backup_status`: classify every listed target, then
`resultSet.sort(reverse=True)`. -/
def get_backup_status (env : Env) (servers : List ServerDir) :
    PyResult (List StatusRec) :=
  (collectStatuses env servers).map (List.insertionSort statusGe)

-- ---------------------------------------------------------------------------
-- Concrete scenario inputs used by counterexamples and witnesses
-- ---------------------------------------------------------------------------

/-- Depth-3 scenario of the spec: `backup.0 .. backup.3` pre-populated with
pairwise distinct contents 0..3 (slot 3 is the staging area), no leftover
`backup.tmp`. -/
def fsC1 : Fs (GenDir Nat) := fun n =>
  match n with
  | FsName.slot i => if i ≤ 3 then some ⟨some i, none⟩ else none
  | FsName.tmp => none

/-- Completion record written by the depth-3 scenario run. -/
def recC1 : CompletedData :=
  ⟨"db1", "2024-05-05T10:20:30.123456", 12⟩

/-- Depth-3 plain-content file system used for the rotation-bijection
witness. -/
def fsC4 : Fs Nat := fun n =>
  match n with
  | FsName.slot i => if i ≤ 3 then some i else none
  | FsName.tmp => none

/-- Depth-2 scenario with populated generations used for the sync-failure
witness. -/
def fsC5 : Fs (GenDir Nat) := fun n =>
  match n with
  | FsName.slot i => if i ≤ 2 then some ⟨some (10 + i), none⟩ else none
  | FsName.tmp => none

/-- Environment for the plugin-output scenario: current time and date
2024-05-05, with a fixed local-timezone epoch conversion. -/
def envC2 : Env :=
  ⟨⟨2024, 5, 5, 12, 0, 0, 0, none⟩, (2024, 5, 5), fun _ => ⟨2024, 5, 5, 0, 0, 0, 0, none⟩⟩

/-- The spec's plugin scenario: the status plugin exits 1 and prints
`ERR:iso:2024-01-01T00:00:00Z:12:5:disk full`. -/
def serverC2 : ServerDir :=
  ⟨"db1", false, some ⟨1, "ERR:iso:2024-01-01T00:00:00Z:12:5:disk full"⟩, none, none⟩

/-- Environment for the classification witnesses: today is 2024-05-05. -/
def envC6 : Env :=
  ⟨⟨2024, 5, 5, 12, 0, 0, 0, none⟩, (2024, 5, 5), fun _ => ⟨2024, 5, 5, 0, 0, 0, 0, none⟩⟩

/-- A target without plugin whose completion record is exactly what
`Backup.run` writes: a naive `datetime.now().isoformat()` timestamp — with
fractional seconds and no timezone — dated today (2024-05-05). -/
def serverC6 : ServerDir :=
  ⟨"db1", false, none, some ⟨"db1", "2024-05-05T10:20:30.123456", 12⟩, none⟩

/-- Environment for the sorting witness: today is 2024-05-05. -/
def envC9 : Env :=
  ⟨⟨2024, 5, 5, 12, 0, 0, 0, none⟩, (2024, 5, 5), fun _ => ⟨2024, 5, 5, 0, 0, 0, 0, none⟩⟩

/-- Two targets that both completed today, yielding two OK records. -/
def serversC9 : List ServerDir :=
  [⟨"a", false, none, some ⟨"a", "2024-05-05T10:00:00.5Z", 12⟩, none⟩,
   ⟨"b", false, none, some ⟨"b", "2024-05-05T11:00:00.5Z", 13⟩, none⟩]

/-- The sorted report produced from `serversC9`. -/
def reportC9 : List StatusRec :=
  [⟨0, "b", some ⟨2024, 5, 5, 11, 0, 0, 5, some 0⟩, "0:00:13", none⟩,
   ⟨0, "a", some ⟨2024, 5, 5, 10, 0, 0, 5, some 0⟩, "0:00:12", none⟩]

/-- A guarded body for the scoped-lock witness: it leaves the file system
alone and raises (returns an exception value), exercising the error exit
path of the `with` block. -/
def bodyC8 : Bool → Option String → Option String × Option Nat :=
  fun _ f => (f, some 3)

-- ---------------------------------------------------------------------------
-- Helper lemmas about renaming and rotation
-- ---------------------------------------------------------------------------

lemma slot_ne_tmp (i : Nat) : FsName.slot i ≠ FsName.tmp :=
  fun h => FsName.noConfusion h

lemma tmp_ne_slot (i : Nat) : FsName.tmp ≠ FsName.slot i :=
  fun h => FsName.noConfusion h

lemma slot_ne_slot {i j : Nat} (h : i ≠ j) : FsName.slot i ≠ FsName.slot j :=
  fun hc => h (FsName.slot.inj hc)

lemma renamed_dst {α : Type} (fs : Fs α) (src dst : FsName) (c : α) :
    renamed fs src dst c dst = some c := by
  unfold renamed
  rw [if_pos rfl]

lemma renamed_src {α : Type} (fs : Fs α) (src dst : FsName) (c : α) (h : src ≠ dst) :
    renamed fs src dst c src = none := by
  unfold renamed
  rw [if_neg h, if_pos rfl]

lemma renamed_other {α : Type} (fs : Fs α) (src dst n : FsName) (c : α)
    (h1 : n ≠ dst) (h2 : n ≠ src) : renamed fs src dst c n = fs n := by
  unfold renamed
  rw [if_neg h1, if_neg h2]

lemma rename_eq {α : Type} (fs : Fs α) (src dst : FsName) (c : α)
    (hsrc : fs src = some c) (hdst : fs dst = none) :
    rename fs src dst = some (renamed fs src dst c) := by
  unfold rename
  rw [hsrc, hdst]

/-- Complete characterisation of the rotation loop: starting from a state
whose slots `0 .. k-1` hold `c 0 .. c (k-1)` and whose slot `k` is vacant,
the loop succeeds, vacates slot 0, moves each content up one slot, and
touches nothing else. -/
lemma shiftLoop_spec {α : Type} (c : Nat → α) (k : Nat) :
    ∀ (g : Fs α),
      (∀ i, i < k → g (FsName.slot i) = some (c i)) → g (FsName.slot k) = none →
      ∃ g2, shiftLoop k g = some g2
        ∧ g2 (FsName.slot 0) = none
        ∧ (∀ j, 1 ≤ j → j ≤ k → g2 (FsName.slot j) = some (c (j - 1)))
        ∧ (∀ j, k < j → g2 (FsName.slot j) = g (FsName.slot j))
        ∧ g2 FsName.tmp = g FsName.tmp := by
  induction k with
  | zero =>
    intro g _ hk
    exact ⟨g, rfl, hk, fun j h1 h2 => by omega, fun _ _ => rfl, rfl⟩
  | succ k ih =>
    intro g hlo hk
    have hsrc : g (FsName.slot k) = some (c k) := hlo k (by omega)
    have hren : rename g (FsName.slot k) (FsName.slot (k + 1)) =
        some (renamed g (FsName.slot k) (FsName.slot (k + 1)) (c k)) :=
      rename_eq g _ _ _ hsrc hk
    have h1 : ∀ i, i < k →
        renamed g (FsName.slot k) (FsName.slot (k + 1)) (c k) (FsName.slot i) = some (c i) := by
      intro i hi
      rw [renamed_other _ _ _ _ _ (slot_ne_slot (by omega)) (slot_ne_slot (by omega))]
      exact hlo i (by omega)
    have h2 : renamed g (FsName.slot k) (FsName.slot (k + 1)) (c k) (FsName.slot k) = none :=
      renamed_src _ _ _ _ (slot_ne_slot (by omega))
    obtain ⟨g2, hsl, hz, hmid, hhi, htmp⟩ :=
      ih (renamed g (FsName.slot k) (FsName.slot (k + 1)) (c k)) h1 h2
    refine ⟨g2, ?_, hz, ?_, ?_, ?_⟩
    · show shiftLoop (k + 1) g = some g2
      rw [shiftLoop, hren]
      exact hsl
    · intro j h1j hjk
      by_cases hj : j ≤ k
      · exact hmid j h1j hj
      · have hj1 : j = k + 1 := by omega
        subst hj1
        rw [hhi (k + 1) (by omega), renamed_dst]
        simp
    · intro j hj
      rw [hhi j (by omega)]
      exact renamed_other _ _ _ _ _ (slot_ne_slot (by omega)) (slot_ne_slot (by omega))
    · rw [htmp]
      exact renamed_other _ _ _ _ _ (tmp_ne_slot _) (tmp_ne_slot _)

/-- Complete characterisation of `Backup.rotate` from a fully-populated
state: the staged content of slot N lands in slot 0, each other content
moves one slot down, slots beyond N and the absent `backup.tmp` are
untouched. -/
lemma rotate_spec {α : Type} (backups : Nat) (c : Nat → α) (fs : Fs α)
    (hs : ∀ i, i ≤ backups → fs (FsName.slot i) = some (c i))
    (ht : fs FsName.tmp = none) :
    ∃ g, rotate backups fs = some g
      ∧ g (FsName.slot 0) = some (c backups)
      ∧ (∀ i, i < backups → g (FsName.slot (i + 1)) = some (c i))
      ∧ (∀ j, backups < j → g (FsName.slot j) = fs (FsName.slot j))
      ∧ g FsName.tmp = none := by
  have hren1 : rename fs (FsName.slot backups) FsName.tmp =
      some (renamed fs (FsName.slot backups) FsName.tmp (c backups)) :=
    rename_eq fs _ _ _ (hs backups le_rfl) ht
  have h1 : ∀ i, i < backups →
      renamed fs (FsName.slot backups) FsName.tmp (c backups) (FsName.slot i) = some (c i) := by
    intro i hi
    rw [renamed_other _ _ _ _ _ (slot_ne_tmp i) (slot_ne_slot (by omega))]
    exact hs i (by omega)
  have h2 : renamed fs (FsName.slot backups) FsName.tmp (c backups) (FsName.slot backups) =
      none :=
    renamed_src _ _ _ _ (slot_ne_tmp backups)
  obtain ⟨g2, hsl, hz, hmid, hhi, htmp⟩ :=
    shiftLoop_spec c backups (renamed fs (FsName.slot backups) FsName.tmp (c backups)) h1 h2
  have htmp2 : g2 FsName.tmp = some (c backups) := by
    rw [htmp]
    exact renamed_dst _ _ _ _
  have hren2 : rename g2 FsName.tmp (FsName.slot 0) =
      some (renamed g2 FsName.tmp (FsName.slot 0) (c backups)) :=
    rename_eq g2 _ _ _ htmp2 hz
  refine ⟨renamed g2 FsName.tmp (FsName.slot 0) (c backups), ?_, ?_, ?_, ?_, ?_⟩
  · unfold rotate
    rw [hren1]
    show (shiftLoop backups (renamed fs (FsName.slot backups) FsName.tmp (c backups))).bind
      (fun fs2 => rename fs2 FsName.tmp (FsName.slot 0)) = _
    rw [hsl]
    exact hren2
  · exact renamed_dst _ _ _ _
  · intro i hi
    rw [renamed_other _ _ _ _ _ (slot_ne_slot (by omega)) (slot_ne_tmp _)]
    have h := hmid (i + 1) (by omega) (by omega)
    simpa using h
  · intro j hj
    rw [renamed_other _ _ _ _ _ (slot_ne_slot (by omega)) (slot_ne_tmp _)]
    rw [hhi j (by omega)]
    exact renamed_other _ _ _ _ _ (slot_ne_tmp _) (slot_ne_slot (by omega))
  · exact renamed_src _ _ _ _ (tmp_ne_slot 0)

lemma ensureDirs_slot_some {α : Type} (backups : Nat) (fs : Fs (GenDir α)) (i : Nat)
    (g : GenDir α) (hg : fs (FsName.slot i) = some g) :
    ensureDirs backups fs (FsName.slot i) = some g := by
  show (if i < backups then some ((fs (FsName.slot i)).getD ⟨none, none⟩)
    else fs (FsName.slot i)) = some g
  by_cases hi : i < backups
  · rw [if_pos hi, hg]
    rfl
  · rw [if_neg hi]
    exact hg

lemma ensureDirs_slot_ge {α : Type} (backups : Nat) (fs : Fs (GenDir α)) (i : Nat)
    (hi : ¬ i < backups) :
    ensureDirs backups fs (FsName.slot i) = fs (FsName.slot i) := by
  show (if i < backups then some ((fs (FsName.slot i)).getD ⟨none, none⟩)
    else fs (FsName.slot i)) = fs (FsName.slot i)
  rw [if_neg hi]

lemma ensureDirs_tmp {α : Type} (backups : Nat) (fs : Fs (GenDir α)) :
    ensureDirs backups fs FsName.tmp = fs FsName.tmp := rfl

lemma syncStage_at {α : Type} (backups : Nat) (synced : α) (g : Fs (GenDir α)) :
    syncStage backups synced g (FsName.slot backups) =
      some ⟨some synced, (g (FsName.slot backups)).bind GenDir.completed⟩ := by
  unfold syncStage
  rw [if_pos rfl]

lemma syncStage_other {α : Type} (backups : Nat) (synced : α) (g : Fs (GenDir α))
    (n : FsName) (h : n ≠ FsName.slot backups) :
    syncStage backups synced g n = g n := by
  unfold syncStage
  rw [if_neg h]

lemma writeCompleted_at {α : Type} (rec : CompletedData) (fs3 : Fs (GenDir α))
    (g0 : GenDir α) :
    writeCompleted rec fs3 g0 (FsName.slot 0) = some ⟨g0.files, some rec⟩ := by
  unfold writeCompleted
  rw [if_pos rfl]

lemma writeCompleted_other {α : Type} (rec : CompletedData) (fs3 : Fs (GenDir α))
    (g0 : GenDir α) (n : FsName) (h : n ≠ FsName.slot 0) :
    writeCompleted rec fs3 g0 n = fs3 n := by
  unfold writeCompleted
  rw [if_neg h]

lemma pyStrLeB_total : ∀ (a b : List Char), pyStrLeB a b = true ∨ pyStrLeB b a = true := by
  intro a
  induction a with
  | nil => intro b; left; rfl
  | cons x xs ih =>
    intro b
    cases b with
    | nil => right; rfl
    | cons y ys =>
      by_cases h1 : x.toNat < y.toNat
      · left
        unfold pyStrLeB
        rw [if_pos h1]
      · by_cases h2 : y.toNat < x.toNat
        · right
          unfold pyStrLeB
          rw [if_pos h2]
        · rcases ih ys with h | h
          · left
            unfold pyStrLeB
            rw [if_neg h1, if_neg h2]
            exact h
          · right
            unfold pyStrLeB
            rw [if_neg h2, if_neg h1]
            exact h

lemma pyStrLeB_trans : ∀ (a b c : List Char),
    pyStrLeB a b = true → pyStrLeB b c = true → pyStrLeB a c = true := by
  intro a
  induction a with
  | nil => intro b c _ _; rfl
  | cons x xs ih =>
    intro b c hab hbc
    cases b with
    | nil => exact absurd hab (by simp [pyStrLeB])
    | cons y ys =>
      cases c with
      | nil => exact absurd hbc (by simp [pyStrLeB])
      | cons z zs =>
        unfold pyStrLeB at hab hbc ⊢
        by_cases hxy : x.toNat < y.toNat
        · by_cases hyz : y.toNat < z.toNat
          · rw [if_pos (by omega)]
          · rw [if_neg hyz] at hbc
            by_cases hzy : z.toNat < y.toNat
            · rw [if_pos hzy] at hbc
              exact absurd hbc (by simp)
            · rw [if_pos (by omega)]
        · by_cases hyx : y.toNat < x.toNat
          · rw [if_neg hxy, if_pos hyx] at hab
            exact absurd hab (by simp)
          · rw [if_neg hxy, if_neg hyx] at hab
            by_cases hyz : y.toNat < z.toNat
            · rw [if_pos (by omega)]
            · rw [if_neg hyz] at hbc
              by_cases hzy : z.toNat < y.toNat
              · rw [if_pos hzy] at hbc
                exact absurd hbc (by simp)
              · rw [if_neg hzy] at hbc
                rw [if_neg (by omega), if_neg (by omega)]
                exact ih ys zs hab hbc

instance : IsTotal StatusRec statusGe :=
  ⟨by
    intro a b
    rcases lt_trichotomy a.code b.code with h | h | h
    · exact Or.inr (Or.inl h)
    · rcases pyStrLeB_total b.server.data a.server.data with hs | hs
      · exact Or.inl (Or.inr ⟨h.symm, hs⟩)
      · exact Or.inr (Or.inr ⟨h, hs⟩)
    · exact Or.inl (Or.inl h)⟩

instance : IsTrans StatusRec statusGe :=
  ⟨by
    intro a b c hab hbc
    rcases hab with h1 | ⟨h1, h1s⟩ <;> rcases hbc with h2 | ⟨h2, h2s⟩
    · exact Or.inl (lt_trans h2 h1)
    · exact Or.inl (by omega)
    · exact Or.inl (by omega)
    · exact Or.inr ⟨by omega, pyStrLeB_trans _ _ _ h2s h1s⟩⟩

-- ---------------------------------------------------------------------------
-- Claims
-- ---------------------------------------------------------------------------

/-- C1 (counterexample): in the depth-3 scenario with backup.0..backup.3
populated with pairwise distinct contents 0..3 and a successful staged sync
of content 100, run() does NOT make the old backup.2 content disappear: it
is moved into the staging slot backup.3 and remains present, while old
backup.0 is now backup.1 and the staged content (with the completion
record) is now backup.0. -/
theorem c1_counterexample :
    ((runJob 3 100 0 recC1 fsC1).map (fun p => p.1 (FsName.slot 3)) =
        some (some ⟨some 2, none⟩))
  ∧ ¬ (∀ n : FsName, (runJob 3 100 0 recC1 fsC1).map (fun p => p.1 n) ≠
        some (some ⟨some (2 : Nat), none⟩))
  ∧ ((runJob 3 100 0 recC1 fsC1).map (fun p => p.1 (FsName.slot 1)) =
        some (some ⟨some 0, none⟩))
  ∧ ((runJob 3 100 0 recC1 fsC1).map (fun p => p.1 (FsName.slot 0)) =
        some (some ⟨some 100, some recC1⟩)) := by
  refine ⟨by decide, fun h => h (FsName.slot 3) (by decide), by decide, by decide⟩

/-- C1 (amended): for every job with retention depth N ≥ 1 whose generation
directories backup.0..backup.N exist (and no leftover backup.tmp), a
successful run promotes the staged directory to generation 0 — writing the
completion record into it — and shifts every existing generation down by
one slot; the oldest generation is not discarded but moved into the vacated
staging slot backup.N (its content is only overwritten by the next run's
sync): in the depth-3 scenario, after run() the old backup.2 content is at
backup.3, old backup.0 is now backup.1, and the staged content is now
backup.0. -/
theorem c1_run_promotes_and_shifts {α : Type} (backups : Nat) (hN : 1 ≤ backups)
    (synced : α) (rec : CompletedData) (fs : Fs (GenDir α)) (c : Nat → GenDir α)
    (hs : ∀ i, i ≤ backups → fs (FsName.slot i) = some (c i))
    (ht : fs FsName.tmp = none) :
    ((runJob backups synced 0 rec fs).map (fun p => (p.1 (FsName.slot 0), p.2)) =
        some (some ⟨some synced, some rec⟩, none))
  ∧ (∀ i, i < backups →
      (runJob backups synced 0 rec fs).map (fun p => p.1 (FsName.slot (i + 1))) =
        some (some (c i)))
  ∧ ((runJob backups synced 0 rec fs).map (fun p => p.1 FsName.tmp) = some none) := by
  have hs2 : ∀ i, i ≤ backups →
      syncStage backups synced (ensureDirs backups fs) (FsName.slot i) =
        some (if i = backups then (⟨some synced, (c backups).completed⟩ : GenDir α)
          else c i) := by
    intro i hi
    by_cases hib : i = backups
    · rw [hib, syncStage_at,
        ensureDirs_slot_some backups fs backups (c backups) (hs backups le_rfl),
        if_pos rfl]
      rfl
    · rw [syncStage_other _ _ _ _ (slot_ne_slot hib),
        ensureDirs_slot_some backups fs i (c i) (hs i hi), if_neg hib]
  have ht2 : syncStage backups synced (ensureDirs backups fs) FsName.tmp = none := by
    rw [syncStage_other _ _ _ _ (tmp_ne_slot backups), ensureDirs_tmp]
    exact ht
  obtain ⟨g, hrot, hg0, hshift, hhi, hgtmp⟩ :=
    rotate_spec backups
      (fun i => if i = backups then (⟨some synced, (c backups).completed⟩ : GenDir α)
        else c i)
      (syncStage backups synced (ensureDirs backups fs)) hs2 ht2
  have hg0' : g (FsName.slot 0) = some ⟨some synced, (c backups).completed⟩ := by
    rw [hg0, if_pos rfl]
  have hrun : runJob backups synced 0 rec fs =
      some (writeCompleted rec g ⟨some synced, (c backups).completed⟩, none) := by
    simp only [runJob]
    rw [if_neg (by simp), hrot, Option.some_bind', hg0', Option.map_some']
  refine ⟨?_, ?_, ?_⟩
  · rw [hrun]
    simp only [Option.map_some']
    rw [writeCompleted_at]
  · intro i hi
    rw [hrun]
    simp only [Option.map_some']
    rw [writeCompleted_other _ _ _ _ (slot_ne_slot (by omega)), hshift i hi,
      if_neg (by omega)]
  · rw [hrun]
    simp only [Option.map_some']
    rw [writeCompleted_other _ _ _ _ (tmp_ne_slot 0), hgtmp]

/-- C1 (witness): the depth-3 instance of the amended claim — after a
successful run, backup.3 holds the old backup.2 content. -/
theorem c1_witness :
    (runJob 3 100 0 recC1 fsC1).map (fun p => p.1 (FsName.slot 3)) =
      some (some ⟨some (2 : Nat), none⟩) :=
  (c1_run_promotes_and_shifts 3 (by omega) 100 recC1 fsC1 (fun i => ⟨some i, none⟩)
    (fun i hi => by
      show (if i ≤ 3 then some (⟨some i, none⟩ : GenDir Nat) else none) =
        some ⟨some i, none⟩
      rw [if_pos hi])
    rfl).2.1 2 (by omega)

/-- C4: one rotation is a bijection on the slots 0..N: every slot exists
afterwards, the content of old slot i is found at slot rotIdx N i (N goes
to 0, i to i+1), rotIdx is injective on 0..N, every new slot holds some old
generation, contents stay pairwise distinct when the initial contents are,
and generation 0 is exactly the directory that was staged (old slot N). -/
theorem c4_rotation_bijection {α : Type} (backups : Nat) (hN : 1 ≤ backups)
    (c : Nat → α) (fs : Fs α)
    (hs : ∀ i, i ≤ backups → fs (FsName.slot i) = some (c i))
    (ht : fs FsName.tmp = none) :
    (∀ i, i ≤ backups →
        (rotate backups fs).map (fun g => (g (FsName.slot i)).isSome) = some true)
  ∧ (∀ i, i ≤ backups →
        (rotate backups fs).map (fun g => g (FsName.slot (rotIdx backups i))) =
          some (fs (FsName.slot i)))
  ∧ (∀ i j, i ≤ backups → j ≤ backups → rotIdx backups i = rotIdx backups j → i = j)
  ∧ (∀ j, j ≤ backups → ∃ i, i ≤ backups ∧
        (rotate backups fs).map (fun g => g (FsName.slot j)) = some (fs (FsName.slot i)))
  ∧ ((∀ i j, i ≤ backups → j ≤ backups → c i = c j → i = j) →
      ∀ i j, i ≤ backups → j ≤ backups →
        (rotate backups fs).map (fun g => g (FsName.slot i)) =
          (rotate backups fs).map (fun g => g (FsName.slot j)) → i = j)
  ∧ ((rotate backups fs).map (fun g => g (FsName.slot 0)) =
      some (fs (FsName.slot backups))) := by
  obtain ⟨g, hrot, hg0, hmid, hhi, hgtmp⟩ := rotate_spec backups c fs hs ht
  have hval : ∀ i, i ≤ backups →
      g (FsName.slot i) = some (c (if i = 0 then backups else i - 1)) := by
    intro i hi
    by_cases h0 : i = 0
    · subst h0
      rw [hg0, if_pos rfl]
    · rw [if_neg h0]
      have h := hmid (i - 1) (by omega)
      rw [show i - 1 + 1 = i from by omega] at h
      exact h
  refine ⟨?_, ?_, ?_, ?_, ?_, ?_⟩
  · intro i hi
    rw [hrot]
    simp only [Option.map_some']
    rw [hval i hi]
    rfl
  · intro i hi
    rw [hrot]
    simp only [Option.map_some']
    unfold rotIdx
    by_cases hib : i = backups
    · rw [hib, if_pos rfl, hg0, hs backups le_rfl]
    · rw [if_neg hib, hmid i (by omega), hs i hi]
  · intro i j hi hj hEq
    unfold rotIdx at hEq
    split_ifs at hEq <;> omega
  · intro j hj
    by_cases h0 : j = 0
    · refine ⟨backups, le_rfl, ?_⟩
      rw [h0, hrot]
      simp only [Option.map_some']
      rw [hg0, hs backups le_rfl]
    · refine ⟨j - 1, by omega, ?_⟩
      rw [hrot]
      simp only [Option.map_some']
      rw [hval j hj, if_neg h0, hs (j - 1) (by omega)]
  · intro hinj i j hi hj hEq
    rw [hrot] at hEq
    simp only [Option.map_some', Option.some.injEq] at hEq
    rw [hval i hi, hval j hj] at hEq
    simp only [Option.some.injEq] at hEq
    have h := hinj _ _ (by split_ifs <;> omega) (by split_ifs <;> omega) hEq
    split_ifs at h <;> omega
  · rw [hrot]
    simp only [Option.map_some']
    rw [hg0, hs backups le_rfl]

/-- C4 (witness): the depth-3 instance — after rotating, generation 0 holds
exactly the content that was staged in slot 3. -/
theorem c4_witness :
    (rotate 3 fsC4).map (fun g => g (FsName.slot 0)) = some (some 3) :=
  (c4_rotation_bijection 3 (by omega) (fun i => i) fsC4
    (fun i hi => by
      show (if i ≤ 3 then some i else none) = some i
      rw [if_pos hi])
    rfl).2.2.2.2.2

/-- C5: when rsync exits with a code other than 0 and 24, run() aborts the
job before rotation: the exit code is reported (and the run returns rather
than raising, so the batch continues), the prior generations backup.0 ..
backup.(N-1) are untouched, backup.tmp is untouched, no completion record
is written (the staging slot keeps its old completed file, every other slot
is bitwise untouched), and slots beyond N are untouched. -/
theorem c5_sync_failure_aborts {α : Type} (backups : Nat) (synced : α)
    (returncode : Int) (rec : CompletedData) (fs : Fs (GenDir α))
    (h0 : returncode ≠ 0) (h24 : returncode ≠ 24)
    (hpop : ∀ i, i < backups → (fs (FsName.slot i)).isSome = true) :
    ((runJob backups synced returncode rec fs).map Prod.snd = some (some returncode))
  ∧ (∀ i, i < backups →
      (runJob backups synced returncode rec fs).map (fun p => p.1 (FsName.slot i)) =
        some (fs (FsName.slot i)))
  ∧ ((runJob backups synced returncode rec fs).map (fun p => p.1 FsName.tmp) =
      some (fs FsName.tmp))
  ∧ ((runJob backups synced returncode rec fs).map
        (fun p => (p.1 (FsName.slot backups)).bind GenDir.completed) =
      some ((fs (FsName.slot backups)).bind GenDir.completed))
  ∧ (∀ j, backups < j →
      (runJob backups synced returncode rec fs).map (fun p => p.1 (FsName.slot j)) =
        some (fs (FsName.slot j))) := by
  have hrun : runJob backups synced returncode rec fs =
      some (syncStage backups synced (ensureDirs backups fs), some returncode) := by
    simp only [runJob]
    rw [if_pos ⟨h0, h24⟩]
  refine ⟨?_, ?_, ?_, ?_, ?_⟩
  · rw [hrun]
    rfl
  · intro i hi
    rw [hrun]
    simp only [Option.map_some']
    rw [syncStage_other _ _ _ _ (slot_ne_slot (by omega))]
    obtain ⟨gd, hgd⟩ := Option.isSome_iff_exists.mp (hpop i hi)
    rw [ensureDirs_slot_some backups fs i gd hgd, hgd]
  · rw [hrun]
    simp only [Option.map_some']
    rw [syncStage_other _ _ _ _ (tmp_ne_slot backups), ensureDirs_tmp]
  · rw [hrun]
    simp only [Option.map_some']
    rw [syncStage_at, ensureDirs_slot_ge backups fs backups (by omega)]
    rfl
  · intro j hj
    rw [hrun]
    simp only [Option.map_some']
    rw [syncStage_other _ _ _ _ (slot_ne_slot (by omega)),
      ensureDirs_slot_ge backups fs j (by omega)]

/-- C5 (witness): a depth-2 job whose rsync exits 5 reports exit code 5 and
completes without raising. -/
theorem c5_witness :
    (runJob 2 99 5 (⟨"db1", "t", 1⟩ : CompletedData) fsC5).map Prod.snd =
      some (some 5) :=
  (c5_sync_failure_aborts 2 99 5 ⟨"db1", "t", 1⟩ fsC5 (by decide) (by decide)
    (fun i hi => by
      show ((if i ≤ 2 then some (⟨some (10 + i), none⟩ : GenDir Nat) else none)).isSome =
        true
      rw [if_pos (by omega)]
      rfl)).1

/-- C3 (counterexample): with a lock file holding pid 42 and a liveness
probe failing with permission-denied (an OSError other than "no such
process"), acquisition does NOT report not-acquired: the source catches
every OSError with `pass`, so the lock file is overwritten with the current
pid 7 and acquisition succeeds. -/
theorem c3_counterexample :
    lockEnter (fun _ => KillRes.permissionDenied) 7 false (some "42") =
      (some "7", true)
    ∧ lockEnter (fun _ => KillRes.permissionDenied) 7 false (some "42") ≠
      (some "42", false) :=
  ⟨by decide, by decide⟩

/-- C3 (amended): during lock acquisition, when the lock file exists and
holds a process identifier, ANY liveness-probe failure — "no such process"
and "permission denied" alike — is treated as the lock being stale:
acquisition reports acquired and overwrites the lock file with the current
process's pid.  Only a successful probe (signal delivered, process alive)
reports not-acquired. -/
theorem c3_probe_failure_takeover (probe : Int → KillRes) (mypid : Nat)
    (content : String) (pid : Int) (hparse : pyInt? content = some pid)
    (hprobe : probe pid ≠ KillRes.delivered) :
    lockEnter probe mypid false (some content) = (some (toString mypid), true) := by
  cases hp : probe pid with
  | delivered => exact absurd hp hprobe
  | noSuchProcess => simp [lockEnter, hparse, hp]
  | permissionDenied => simp [lockEnter, hparse, hp]

/-- C3 (witness): a permission-denied probe on pid 42 lets pid 9 take the
lock over. -/
theorem c3_witness :
    lockEnter (fun _ => KillRes.permissionDenied) 9 false (some "42") =
      (some (toString 9), true) :=
  c3_probe_failure_takeover (fun _ => KillRes.permissionDenied) 9 "42" 42
    (by decide) (by decide)

/-- C7: when the lock file holds the pid of a process that is not alive
(the probe fails with "no such process"), a new acquisition attempt
succeeds and overwrites the lock file with the current process's pid. -/
theorem c7_dead_pid_acquires (probe : Int → KillRes) (mypid : Nat)
    (content : String) (pid : Int) (hparse : pyInt? content = some pid)
    (hdead : probe pid = KillRes.noSuchProcess) :
    lockEnter probe mypid false (some content) = (some (toString mypid), true) := by
  simp [lockEnter, hparse, hdead]

/-- C7 (witness): a lock file holding dead pid 42 is taken over by pid 8. -/
theorem c7_witness :
    lockEnter (fun _ => KillRes.noSuchProcess) 8 false (some "42") =
      (some (toString 8), true) :=
  c7_dead_pid_acquires (fun _ => KillRes.noSuchProcess) 8 "42" 42
    (by decide) (by decide)

/-- C10: when the lock file exists but its content does not parse as an
integer pid (the `int` call raises ValueError, caught with `pass`), the
lock is treated as absent: acquisition succeeds and overwrites the file
with the current process's pid. -/
theorem c10_unparseable_lock_acquires (probe : Int → KillRes) (mypid : Nat)
    (content : String) (hparse : pyInt? content = none) :
    lockEnter probe mypid false (some content) = (some (toString mypid), true) := by
  simp [lockEnter, hparse]

/-- C10 (witness): garbage lock-file content is overwritten by pid 6. -/
theorem c10_witness :
    lockEnter (fun _ => KillRes.delivered) 6 false (some "not-a-pid") =
      (some (toString 6), true) :=
  c10_unparseable_lock_acquires (fun _ => KillRes.delivered) 6 "not-a-pid"
    (by decide)

/-- C8: release deletes the lock file only when this handle acquired it:
releasing a handle that failed to acquire is a no-op (the whole `with`
block returns exactly what the body produced), and for an acquired handle
the lock file is removed on every exit path of the guarded block —
whatever state and exception value the body produced, `__exit__` runs and
unlinks the file before the exception propagates. -/
theorem c8_scoped_release {ε : Type} (probe : Int → KillRes) (mypid : Nat)
    (file : Option String)
    (body : Bool → Option String → Option String × Option ε) :
    (∀ f, lockExit false f = (f, false))
  ∧ ((lockEnter probe mypid false file).2 = false →
      withFileLock probe mypid file body =
        body false (lockEnter probe mypid false file).1)
  ∧ ((lockEnter probe mypid false file).2 = true →
      (withFileLock probe mypid file body).1 = none
      ∧ (withFileLock probe mypid file body).2 =
          (body true (lockEnter probe mypid false file).1).2) := by
  refine ⟨fun f => rfl, ?_, ?_⟩
  · intro hA
    simp only [withFileLock]
    rw [hA]
    simp [lockExit]
  · intro hA
    constructor
    · simp only [withFileLock]
      rw [hA]
      simp [lockExit]
    · simp only [withFileLock]
      rw [hA]

/-- C8 (witness): an acquired lock (stale pid 11 taken over by pid 5) is
released even when the guarded body raises. -/
theorem c8_witness :
    (withFileLock (fun _ => KillRes.noSuchProcess) 5 (some "11") bodyC8).1 = none :=
  ((c8_scoped_release (fun _ => KillRes.noSuchProcess) 5 (some "11") bodyC8).2.2
    (by decide)).1

/-- C2: the status plugin scenario of the spec crashes the classifier
instead of producing an ERROR record: an exit code 1 with output
`ERR:iso:2024-01-01T00:00:00Z:12:5:disk full` is split on every colon into
8 fields (the ISO timestamp itself contains colons), and the source
unpacks the split into exactly five variables, so the line raises
ValueError and the whole status pass aborts. -/
theorem c2_plugin_scenario_crashes :
    classifyServer envC2 serverC2 = PyResult.exn
  ∧ (pySplitColon (pyStrip
      ("ERR:iso:2024-01-01T00:00:00Z:12:5:disk full".data))).length = 8 :=
  ⟨by decide, by decide⟩

/-- C6: evaluation of the classifier at the record shape the program
itself writes.  Backup.run stores a completion record whose timestamp is
datetime.now().isoformat() — naive, with fractional seconds and no
timezone — but the regular expression in parse_rfc3339 makes the timezone
group mandatory, so re.search finds no match and read_completed raises
instead of classifying: a target without plugin whose record is dated
today (2024-05-05) crashes the status pass rather than being classified
OK, and a stale self-written record likewise crashes rather than being
classified ERROR.  Only the absent-record path behaves as the claim says,
classifying UNKNOWN. -/
theorem c6_self_written_record_crashes :
    parse_rfc3339 ("2024-05-05T10:20:30.123456".data) = none
  ∧ classifyServer envC6 serverC6 = PyResult.exn
  ∧ classifyServer envC6 ⟨"db1", false, none,
      some ⟨"db1", "2024-05-04T10:20:30.123456", 12⟩, none⟩ = PyResult.exn
  ∧ classifyServer envC6 ⟨"db2", false, none, none, none⟩ =
      PyResult.ok (some ⟨2, "db2", none, "n/a", none⟩) :=
  ⟨by decide, by decide, by decide, by decide⟩

/-- C9: within one report, after aggregation and sorting every record
classified ERROR (1) or UNKNOWN (2) precedes every record classified OK
(0): once an OK record appears at position i, no later position j holds an
ERR or UNK record. -/
theorem c9_severity_order (env : Env) (ss : List ServerDir) (l : List StatusRec)
    (h : get_backup_status env ss = PyResult.ok l)
    (i j : Nat) (hi : i < l.length) (hj : j < l.length) (hij : i < j)
    (h0 : (l.get ⟨i, hi⟩).code = 0) :
    (l.get ⟨j, hj⟩).code ≠ 1 ∧ (l.get ⟨j, hj⟩).code ≠ 2 := by
  unfold get_backup_status at h
  cases hc : collectStatuses env ss with
  | exn =>
    rw [hc] at h
    exact absurd h (by simp [PyResult.map])
  | ok rs =>
    rw [hc] at h
    simp only [PyResult.map] at h
    injection h with h
    subst h
    have hsorted := List.sorted_insertionSort statusGe rs
    have hrel := hsorted.rel_get_of_lt
      (show (⟨i, hi⟩ : Fin (List.insertionSort statusGe rs).length) < ⟨j, hj⟩ from
        Fin.mk_lt_mk.mpr hij)
    rcases hrel with hlt | ⟨heq, _⟩
    · constructor <;> omega
    · constructor <;> omega

/-- C9 (witness): two OK records sorted next to each other — the record
following an OK record is neither ERR nor UNK. -/
theorem c9_witness :
    (reportC9.get ⟨1, by decide⟩).code ≠ 1 ∧ (reportC9.get ⟨1, by decide⟩).code ≠ 2 :=
  c9_severity_order envC9 serversC9 reportC9 (by decide) 0 1 (by decide) (by decide)
    (by decide) (by decide)

end Rbt
